import Mathlib

/-!
Verification development for the content-import pipeline of the
5e-items-importer repository.  The JavaScript source is shallowly embedded:

* JS regular expressions become `Re` abstract-syntax trees interpreted by a
  backtracking matcher (`RegexEng.mre`) with JS semantics: leftmost match,
  greedy quantifiers with backtracking, ordered alternation, numbered capture
  groups (an optional group that does not participate is absent), and a
  quantifier iteration must consume input to continue (as in ECMAScript).
* JS numbers are embedded as `JSNum`: an exact rational, positive infinity,
  or NaN; `n / 0` is `inf` for `n > 0` and `nan` for `0 / 0`.
* JS `Map` objects (insertion ordered) become association lists.
* The fallible entry point `monsterParser.parseMonster` (which can `throw`)
  becomes an `Except String` value.
-/

namespace RegexEng

/-- JS character class for `\s` (the whitespace characters relevant to the
ASCII inputs handled by this module). -/
def jsSpace (c : Char) : Bool :=
  c == ' ' || c == '\t' || c == '\n' || c == '\r' || c == '\x0b' || c == '\x0c'

/-- JS character class for `\w` (`[A-Za-z0-9_]`). -/
def jsWord (c : Char) : Bool :=
  c.isAlpha || c.isDigit || c == '_'

/-- Regular-expression syntax: empty, single-character class, sequencing,
ordered alternation, greedy Kleene star, numbered capture group, and the
end-of-input anchor `$`. -/
inductive Re where
  | eps : Re
  | cls : (Char → Bool) → Re
  | seq : Re → Re → Re
  | alt : Re → Re → Re
  | star : Re → Re
  | grp : Nat → Re → Re
  | eos : Re

/-- Sequence a list of regexes. -/
def cat : List Re → Re
  | [] => .eps
  | [r] => r
  | r :: rs => .seq r (cat rs)

/-- Single literal character (case sensitive). -/
def chr (c : Char) : Re := .cls (fun d => d == c)

/-- Single literal character, case-insensitive (the `/i` flag). -/
def chrCI (c : Char) : Re := .cls (fun d => d.toLower == c.toLower)

/-- Literal string (case sensitive). -/
def lit (s : String) : Re := cat (s.data.map chr)

/-- Literal string under the `/i` flag. -/
def litCI (s : String) : Re := cat (s.data.map chrCI)

/-- Greedy `r?`. -/
def opt (r : Re) : Re := .alt r .eps

/-- Greedy `r+`. -/
def plus1 (r : Re) : Re := .seq r (.star r)

/-- Ordered alternation of a list (`a|b|c`). -/
def altL : List Re → Re
  | [] => .cls (fun _ => false)
  | [r] => r
  | r :: rs => .alt r (altL rs)

/-- Greedy `r{0,n}`. -/
def repUpTo : Nat → Re → Re
  | 0, _ => .eps
  | n + 1, r => .alt (.seq r (repUpTo n r)) .eps

/-- `r{n}` (exactly n copies). -/
def repEx : Nat → Re → Re
  | 0, _ => .eps
  | n + 1, r => .seq r (repEx n r)

/-- `\d`. -/
def digit : Re := .cls Char.isDigit

/-- `\d+`. -/
def digits1 : Re := plus1 digit

/-- `\s` as a regex node. -/
def ws : Re := .cls jsSpace

/-- `\s*`. -/
def ws0 : Re := .star ws

/-- `\s+`. -/
def ws1 : Re := plus1 ws

/-- `.` (any character but a newline). -/
def dotAny : Re := .cls (fun c => c != '\n')

/-- Negated single-character class `[^...]`. -/
def notCls (p : Char → Bool) : Re := .cls (fun c => !(p c))

/-- Capture environment: group number paired with captured text; the most
recent capture of a group is found first. -/
abbrev Caps := List (Nat × String)

/-- Backtracking matcher in continuation-passing style.  The continuation
receives the remaining input and the captures; the result carries the final
captures and the remaining input after the whole match.  `fuel` bounds the
recursion depth along one backtracking path (it is always instantiated large
enough that it is never exhausted on the inputs considered here).  A star
iteration that consumes no input stops, as in ECMAScript. -/
def mre : Nat → Re → List Char → Caps → (List Char → Caps → Option (Caps × List Char)) →
    Option (Caps × List Char)
  | 0, _, _, _, _ => none
  | _ + 1, .eps, s, cs, k => k s cs
  | _ + 1, .cls p, s, cs, k =>
    match s with
    | [] => none
    | c :: s' => if p c then k s' cs else none
  | f + 1, .seq a b, s, cs, k => mre f a s cs (fun s' cs' => mre f b s' cs' k)
  | f + 1, .alt a b, s, cs, k =>
    match mre f a s cs k with
    | some r => some r
    | none => mre f b s cs k
  | f + 1, .star a, s, cs, k =>
    match mre f a s cs (fun s' cs' =>
        if s'.length < s.length then mre f (.star a) s' cs' k else none) with
    | some r => some r
    | none => k s cs
  | f + 1, .grp n a, s, cs, k =>
    mre f a s cs (fun s' cs' =>
      k s' ((n, String.mk (s.take (s.length - s'.length))) :: cs'))
  | _ + 1, .eos, s, cs, k => if s.isEmpty then k s cs else none

/-- Look up a capture group (JS `match[n]`; `none` = `undefined`). -/
def capGet (cs : Caps) (n : Nat) : Option String :=
  (cs.find? (fun p => p.1 == n)).map (fun p => p.2)

/-- Fuel bound: generous for the fixed patterns of this module. -/
def fuelFor (s : List Char) : Nat := 4000 + 80 * s.length

/-- Match a regex at the start of the input (a JS regex beginning with `^`,
no `/m`); returns captures and the remaining input. -/
def matchPrefixAux (r : Re) (s : List Char) : Option (Caps × List Char) :=
  mre (fuelFor s) r s [] (fun rest cs => some (cs, rest))

/-- `s.match(/^.../)`: captures of an anchored match. -/
def reMatch (r : Re) (s : String) : Option Caps :=
  (matchPrefixAux r s.data).map (fun p => p.1)

/-- Anchored test. -/
def reTest (r : Re) (s : String) : Bool := (reMatch r s).isSome

/-- Unanchored leftmost search over a character list. -/
def reSearchList (r : Re) : List Char → Option Caps
  | [] => (matchPrefixAux r []).map (fun p => p.1)
  | s@(_ :: t) =>
    match matchPrefixAux r s with
    | some (cs, _) => some cs
    | none => reSearchList r t

/-- `s.match(/.../)` without `^`: leftmost search. -/
def reSearch (r : Re) (s : String) : Option Caps := reSearchList r s.data

/-- Unanchored test (`/.../.test(s)`). -/
def reSearchTest (r : Re) (s : String) : Bool := (reSearch r s).isSome

/-- Leftmost search restricted to line starts: a pattern written `^...` under
the `/m` flag.  The flag argument records whether the current position is a
line start. -/
def reSearchLinesAux (r : Re) : List Char → Bool → Option Caps
  | [], atStart => if atStart then (matchPrefixAux r []).map (fun p => p.1) else none
  | s@(c :: t), atStart =>
    match (if atStart then matchPrefixAux r s else none) with
    | some (cs, _) => some cs
    | none => reSearchLinesAux r t (c == '\n')

/-- Multiline-anchored search (`/^.../im`-style `.test`). -/
def reSearchLines (r : Re) (s : String) : Option Caps := reSearchLinesAux r s.data true

/-- Multiline-anchored test. -/
def reSearchLinesTest (r : Re) (s : String) : Bool := (reSearchLines r s).isSome

/-- Leftmost search where the pattern carries a leading `\b` and its first
character is a word character: a match may only begin at position 0 or after
a non-word character.  The flag records whether the previous character allows
a boundary here. -/
def reSearchBoundaryAux (r : Re) : List Char → Bool → Option Caps
  | [], ok => if ok then (matchPrefixAux r []).map (fun p => p.1) else none
  | s@(c :: t), ok =>
    match (if ok then matchPrefixAux r s else none) with
    | some (cs, _) => some cs
    | none => reSearchBoundaryAux r t (!jsWord c)

/-- Search for a `\b`-prefixed word pattern. -/
def reSearchBoundaryTest (r : Re) (s : String) : Bool :=
  (reSearchBoundaryAux r s.data true).isSome

/-- Global replace (`String.replace` with a `/g` regex): leftmost,
non-overlapping, the replacement computed from the captures; an empty match
advances by one character, as in JS. -/
def reReplaceAllAux (r : Re) (f : Caps → String) : Nat → List Char → List Char
  | 0, s => s
  | fu + 1, s =>
    match matchPrefixAux r s with
    | some (cs, rest) =>
      if rest.length < s.length then
        (f cs).data ++ reReplaceAllAux r f fu rest
      else
        match s with
        | [] => (f cs).data
        | c :: t => (f cs).data ++ c :: reReplaceAllAux r f fu t
    | none =>
      match s with
      | [] => []
      | c :: t => c :: reReplaceAllAux r f fu t

/-- Global regex replace on a string. -/
def reReplaceAll (r : Re) (f : Caps → String) (s : String) : String :=
  String.mk (reReplaceAllAux r f (s.length + 1) s.data)

/-- Digits of a decimal numeral folded to a `Nat`. -/
def digitsToNat (l : List Char) : Nat :=
  l.foldl (fun n c => n * 10 + (c.toNat - 48)) 0

/-- JS `parseInt` restricted to the shapes produced by the module's capture
groups: a leading run of decimal digits; `none` models `NaN`. -/
def jsParseNat (s : String) : Option Nat :=
  let ds := s.data.takeWhile Char.isDigit
  if ds.isEmpty then none else some (digitsToNat ds)

/-- JS `parseInt` on an optionally signed numeral (`[+-]\d+`). -/
def jsParseInt (s : String) : Option Int :=
  match s.data with
  | '-' :: rest =>
    let ds := rest.takeWhile Char.isDigit
    if ds.isEmpty then none else some (-(digitsToNat ds : Int))
  | '+' :: rest =>
    let ds := rest.takeWhile Char.isDigit
    if ds.isEmpty then none else some ((digitsToNat ds : Int))
  | _ => (jsParseNat s).map (fun n => (n : Int))

/-- Capture group read as a non-negative integer (used where the group is
`\d+`, hence always parses). -/
def natCap (cs : Caps) (n : Nat) : Nat :=
  ((capGet cs n).bind jsParseNat).getD 0

end RegexEng

namespace JsStr

/-!
Kernel-computable embeddings of the JS string methods the source uses
(`trim`, `startsWith`, `split`, `toLowerCase`, `includes`, `join`), defined
over the character list so that concrete runs of the pipeline reduce inside
the kernel.
-/

/-- Strip leading and trailing whitespace from a character list. -/
def trimList (l : List Char) : List Char :=
  ((l.dropWhile RegexEng.jsSpace).reverse.dropWhile RegexEng.jsSpace).reverse

/-- JS `trim()`. -/
def trim (s : String) : String := String.mk (trimList s.data)

/-- JS `startsWith(pre)`. -/
def startsWith (s pre : String) : Bool := pre.data.isPrefixOf s.data

/-- JS `toLowerCase()` (ASCII). -/
def toLower (s : String) : String := String.mk (s.data.map Char.toLower)

/-- JS `includes(c)` for a single character. -/
def containsChar (s : String) (c : Char) : Bool := s.data.contains c

/-- Worker for `split`: scan for the separator, cut, continue after it.  The
fuel strictly bounds the scan and is always ample. -/
def splitOnAux (sep : List Char) : Nat → List Char → List Char → List (List Char)
  | _, [], acc => [acc.reverse]
  | 0, s, acc => [acc.reverse ++ s]
  | f + 1, s@(c :: t), acc =>
    if sep.isPrefixOf s then acc.reverse :: splitOnAux sep f (s.drop sep.length) []
    else splitOnAux sep f t (c :: acc)

/-- JS `split(sep)` with a non-empty literal separator. -/
def splitOn (s sep : String) : List String :=
  (splitOnAux sep.data (s.data.length + 1) s.data []).map String.mk

/-- JS `Array.join(sep)`. -/
def join (sep : String) : List String → String
  | [] => ""
  | [x] => x
  | x :: xs => x ++ sep ++ join sep xs

end JsStr

deriving instance DecidableEq for Except

/-- A JS number as this embedding needs it: an exact rational, `Infinity`,
or `NaN`. -/
inductive JSNum where
  | num : ℚ → JSNum
  | inf : JSNum
  | nan : JSNum
deriving DecidableEq, Repr

/-- JS division of two non-negative integers: `0/0` is `NaN`, `n/0` is
`Infinity` for positive `n`, otherwise the exact rational quotient. -/
def jsDiv (a b : Nat) : JSNum :=
  if b = 0 then (if a = 0 then JSNum.nan else JSNum.inf) else JSNum.num ((a : ℚ) / (b : ℚ))

/-- Whether a JS number is a (finite) non-negative rational. -/
def JSNum.isNonnegRat : JSNum → Bool
  | .num q => decide (0 ≤ q)
  | _ => false

namespace monsterParser

open RegexEng RegexEng.Re

/-- The statblock section identifiers of `monsterParser.Blocks`, in the
insertion order of the source object literal. -/
inductive BlockId where
  | abilities
  | actions
  | armor
  | bonusActions
  | challenge
  | conditionImmunities
  | damageImmunities
  | immunities2024
  | damageResistances
  | damageVulnerabilities
  | features
  | gear
  | health
  | initiative
  | lairActions
  | languages
  | legendaryActions
  | mythicActions
  | name
  | proficiencyBonus
  | racialDetails
  | reactions
  | savingThrows
  | senses
  | skills
  | souls
  | speed
  | traits
  | utilitySpells
  | villainActions
  | otherBlock
deriving DecidableEq, Repr

/-- `Object.keys(this.Blocks)`: the ids in declaration order. -/
def blockKeys : List BlockId :=
  [.abilities, .actions, .armor, .bonusActions, .challenge, .conditionImmunities,
   .damageImmunities, .immunities2024, .damageResistances, .damageVulnerabilities,
   .features, .gear, .health, .initiative, .lairActions, .languages,
   .legendaryActions, .mythicActions, .name, .proficiencyBonus, .racialDetails,
   .reactions, .savingThrows, .senses, .skills, .souls, .speed, .traits,
   .utilitySpells, .villainActions, .otherBlock]

/-- The `top` attribute of each entry of `Blocks` (absent = `false`). -/
def isTop : BlockId → Bool
  | .abilities => true
  | .armor => true
  | .challenge => true
  | .conditionImmunities => true
  | .damageImmunities => true
  | .immunities2024 => true
  | .damageResistances => true
  | .damageVulnerabilities => true
  | .gear => true
  | .health => true
  | .initiative => true
  | .languages => true
  | .proficiencyBonus => true
  | .racialDetails => true
  | .savingThrows => true
  | .senses => true
  | .skills => true
  | .souls => true
  | .speed => true
  | _ => false

/-- `#regex.racialDetails` (flag `/i`). -/
def racialDetailsRE : Re := cat [
  grp 1 (altL [litCI "tiny", litCI "small", litCI "medium", litCI "large",
               litCI "huge", litCI "gargantuan"]),
  ws1,
  grp 2 (altL [litCI "aberration", litCI "beast", litCI "celestial",
               litCI "construct", litCI "dragon", litCI "elemental", litCI "fey",
               litCI "fiend", litCI "giant", litCI "humanoid",
               litCI "monstrosity", litCI "ooze", litCI "plant", litCI "undead"]),
  opt (grp 3 (cat [ws0, chr '(', grp 4 (plus1 (notCls (fun c => c == ')'))), chr ')'])),
  ws0, chr ',', ws0,
  grp 5 (altL [litCI "lawful good", litCI "neutral good", litCI "chaotic good",
               litCI "lawful neutral", litCI "neutral", litCI "chaotic neutral",
               litCI "lawful evil", litCI "neutral evil", litCI "chaotic evil",
               litCI "unaligned", litCI "any alignment",
               litCI "any non-good alignment", litCI "any non-lawful alignment",
               litCI "any chaotic alignment"])]

/-- `#regex.armor` (flag `/i`). -/
def armorRE : Re := cat [
  litCI "armor", ws1, litCI "class", ws1, grp 1 digits1,
  opt (cat [ws1, chr '(', grp 2 (plus1 (notCls (fun c => c == ')'))), chr ')'])]

/-- `#regex.health` (flag `/i`). -/
def healthRE : Re := cat [
  litCI "hit", ws1, litCI "points", ws1, grp 1 digits1, ws0,
  chr '(', grp 2 (plus1 (notCls (fun c => c == ')'))), chr ')']

/-- `#regex.speed` (flag `/i`). -/
def speedRE : Re := cat [litCI "speed", ws1, grp 1 (plus1 dotAny)]

/-- `#regex.abilities` (flag `/i`). -/
def abilitiesRE : Re := cat [
  grp 1 (altL [litCI "str", litCI "dex", litCI "con", litCI "int", litCI "wis",
               litCI "cha"]),
  ws1, grp 2 digits1, ws0, chr '(',
  grp 3 (cat [.cls (fun c => c == '-' || c == '+'), digits1]), chr ')']

/-- `#regex.savingThrows` (flag `/i`). -/
def savingThrowsRE : Re := cat [litCI "saving", ws1, litCI "throws", ws1, grp 1 (plus1 dotAny)]

/-- `#regex.skills` (flag `/i`). -/
def skillsRE : Re := cat [litCI "skills", ws1, grp 1 (plus1 dotAny)]

/-- `#regex.damageVulnerabilities` (flag `/i`). -/
def damageVulnerabilitiesRE : Re :=
  cat [litCI "damage", ws1, litCI "vulnerabilities", ws1, grp 1 (plus1 dotAny)]

/-- `#regex.damageResistances` (flag `/i`). -/
def damageResistancesRE : Re :=
  cat [litCI "damage", ws1, litCI "resistances", ws1, grp 1 (plus1 dotAny)]

/-- `#regex.damageImmunities` (flag `/i`). -/
def damageImmunitiesRE : Re :=
  cat [litCI "damage", ws1, litCI "immunities", ws1, grp 1 (plus1 dotAny)]

/-- `#regex.conditionImmunities` (flag `/i`). -/
def conditionImmunitiesRE : Re :=
  cat [litCI "condition", ws1, litCI "immunities", ws1, grp 1 (plus1 dotAny)]

/-- `#regex.immunities2024` (flag `/i`). -/
def immunities2024RE : Re := cat [litCI "immunities", ws1, grp 1 (plus1 dotAny)]

/-- `#regex.senses` (flag `/i`). -/
def sensesRE : Re := cat [litCI "senses", ws1, grp 1 (plus1 dotAny)]

/-- `#regex.languages` (flag `/i`). -/
def languagesRE : Re := cat [litCI "languages", ws1, grp 1 (plus1 dotAny)]

/-- `#regex.challenge` (flag `/i`). -/
def challengeRE : Re := cat [
  litCI "challenge", ws1,
  grp 1 (.alt (cat [digits1, chr '/', digits1]) digits1),
  ws0, chr '(', grp 2 (plus1 (notCls (fun c => c == ')'))), ws0, chr ')']

/-- `#regex.actions` (`/^actions$/i`). -/
def actionsRE : Re := cat [litCI "actions", eos]

/-- `#regex.bonusActions`. -/
def bonusActionsRE : Re := cat [litCI "bonus", ws1, litCI "actions", eos]

/-- `#regex.reactions`. -/
def reactionsRE : Re := cat [litCI "reactions", eos]

/-- `#regex.legendaryActions`. -/
def legendaryActionsRE : Re := cat [litCI "legendary", ws1, litCI "actions", eos]

/-- `#regex.lairActions`. -/
def lairActionsRE : Re := cat [litCI "lair", ws1, litCI "actions", eos]

/-- `#regex.mythicActions`. -/
def mythicActionsRE : Re := cat [litCI "mythic", ws1, litCI "actions", eos]

/-- `#regex.villainActions`. -/
def villainActionsRE : Re := cat [litCI "villain", ws1, litCI "actions", eos]

/-- `[A-Z]`. -/
def upperAZ : Re := .cls (fun c => 'A' ≤ c && c ≤ 'Z')

/-- `[\w\s]`. -/
def wordOrSpace : Re := .cls (fun c => jsWord c || jsSpace c)

/-- `#regex.blockTitle` (`/^([A-Z][\w\s]+)\./`, case sensitive). -/
def blockTitleRE : Re := cat [grp 1 (cat [upperAZ, plus1 wordOrSpace]), chr '.']

/-- `#regex.otherBlock` (`/^([A-Z][\w\s]{0,30})\./`, case sensitive). -/
def otherBlockRE : Re := cat [grp 1 (cat [upperAZ, repUpTo 30 wordOrSpace]), chr '.']

/-- `#regex.removeNewLines` (flag `/g`, case sensitive): a known header
followed by a newline. -/
def removeNewLinesRE : Re := cat [
  grp 1 (altL [lit "Hit Points", lit "Armor Class", lit "Speed",
               lit "Saving Throws", lit "Skills", lit "Damage Vulnerabilities",
               lit "Damage Resistances", lit "Damage Immunities",
               lit "Condition Immunities", lit "Immunities", lit "Senses",
               lit "Languages", lit "Challenge"]),
  ws0, chr '\n']

/-- The `#regex` table restricted to block ids (`this.#regex[b]`): `none`
when the id has no pattern. -/
def regexFor : BlockId → Option Re
  | .racialDetails => some racialDetailsRE
  | .armor => some armorRE
  | .health => some healthRE
  | .speed => some speedRE
  | .abilities => some abilitiesRE
  | .savingThrows => some savingThrowsRE
  | .skills => some skillsRE
  | .damageVulnerabilities => some damageVulnerabilitiesRE
  | .damageResistances => some damageResistancesRE
  | .damageImmunities => some damageImmunitiesRE
  | .conditionImmunities => some conditionImmunitiesRE
  | .immunities2024 => some immunities2024RE
  | .senses => some sensesRE
  | .languages => some languagesRE
  | .challenge => some challengeRE
  | .actions => some actionsRE
  | .bonusActions => some bonusActionsRE
  | .reactions => some reactionsRE
  | .legendaryActions => some legendaryActionsRE
  | .lairActions => some lairActionsRE
  | .mythicActions => some mythicActionsRE
  | .villainActions => some villainActionsRE
  | .otherBlock => some otherBlockRE
  | _ => none

/-- `_getFirstMatch(line, excludeIds)`: first block id, in declaration order
and skipping `name`/`features`/`otherBlock`, that is not excluded, has a
pattern, and whose pattern matches the line. -/
def getFirstMatch (line : String) (excludeIds : List BlockId) : Option BlockId :=
  (blockKeys.filter (fun b =>
      !(b == BlockId.name || b == BlockId.features || b == BlockId.otherBlock))).find?
    (fun b =>
      if excludeIds.contains b then false
      else match regexFor b with
        | none => false
        | some r => reTest r line)

/-- A line tagged with its index (`{ lineNumber: i, line }`). -/
structure TaggedLine where
  lineNumber : Nat
  line : String
deriving DecidableEq, Repr

/-- The insertion-ordered `Map` of section buffers. -/
abbrev Blocks := List (BlockId × List TaggedLine)

/-- `blocks.get(k)`: first binding of the key. -/
def blocksGet : Blocks → BlockId → Option (List TaggedLine)
  | [], _ => none
  | p :: t, k => if p.1 = k then some p.2 else blocksGet t k

/-- `blocks.has(k)`. -/
def blocksHas (bs : Blocks) (k : BlockId) : Bool := (blocksGet bs k).isSome

/-- `blocks.set(k, v)`: overwrites in place, appends at the end when new
(JS `Map` insertion order). -/
def blocksSet : Blocks → BlockId → List TaggedLine → Blocks
  | [], k, v => [(k, v)]
  | p :: t, k, v => if p.1 = k then (k, v) :: t else p :: blocksSet t k v

/-- `blocks.get(k).push(e)` (only reached when the key exists). -/
def blocksPush : Blocks → BlockId → TaggedLine → Blocks
  | [], _, _ => []
  | p :: t, k, e => if p.1 = k then (p.1, p.2 ++ [e]) :: t else p :: blocksPush t k e

/-- The mutable state of the `_parseIntoBlocks` loop. -/
structure TagState where
  blocks : Blocks
  currentBlockId : Option BlockId
  foundTopBlock : Bool
  foundAbilityLine : Bool
deriving Repr

/-- One iteration of the `_parseIntoBlocks` loop, in source order: skip blank
and asterisk lines; match against the not-yet-seen section patterns; the
features branch; the other-block branch; update `foundTopBlock`; close the
ability run on a non-ability match; switch the current section when not mid
ability run; append the line to the current section buffer. -/
def tagStep (st : TagState) (i : Nat) (rawLine : String) : TagState :=
  let line := JsStr.trim rawLine
  if line.length == 0 then st
  else if JsStr.startsWith line "*" then st
  else
    let m := getFirstMatch line (st.blocks.map (fun p => p.1))
    let s1 :=
      if m.isNone && st.foundTopBlock && reTest blockTitleRE line then
        { st with foundTopBlock := false,
                  currentBlockId := some BlockId.features,
                  blocks := blocksSet st.blocks BlockId.features [] }
      else st
    let s2 :=
      if m.isNone && !s1.foundAbilityLine && reTest otherBlockRE line then
        { s1 with foundTopBlock := false,
                  currentBlockId := some BlockId.otherBlock,
                  blocks := if blocksHas s1.blocks BlockId.otherBlock then s1.blocks
                            else blocksSet s1.blocks BlockId.otherBlock [] }
      else s1
    let s3 :=
      match m with
      | some b => { s2 with foundTopBlock := isTop b }
      | none => s2
    let s4 :=
      match m with
      | some b =>
        if s3.foundAbilityLine && !(b == BlockId.abilities) then
          { s3 with foundAbilityLine := false }
        else s3
      | none => s3
    let s5 :=
      match m with
      | some b =>
        if !s4.foundAbilityLine then
          { s4 with currentBlockId := some b,
                    blocks := if blocksHas s4.blocks b then s4.blocks
                              else blocksSet s4.blocks b [],
                    foundAbilityLine := b == BlockId.abilities }
        else s4
      | none => s4
    match s5.currentBlockId with
    | some cb =>
      if blocksHas s5.blocks cb then
        { s5 with blocks := blocksPush s5.blocks cb ⟨i, line⟩ }
      else s5
    | none => s5

/-- `_parseIntoBlocks(lines)`. -/
def parseIntoBlocks (lines : List String) : Blocks :=
  (lines.enum.foldl (fun st p => tagStep st p.1 p.2)
    { blocks := [], currentBlockId := none, foundTopBlock := true,
      foundAbilityLine := false }).blocks

/-- An AC or HP value with its parenthesised formula text. -/
structure AcHp where
  value : Nat
  formula : String
deriving DecidableEq, Repr

/-- One movement mode. -/
structure SpeedEntry where
  type : String
  value : Nat
deriving DecidableEq, Repr

/-- One saving-throw bonus. -/
structure SaveEntry where
  ability : String
  bonus : Int
deriving DecidableEq, Repr

/-- One skill bonus. -/
structure SkillEntry where
  name : String
  bonus : Int
deriving DecidableEq, Repr

/-- One sense: a ranged sense or a special sense kept as a flag. -/
inductive Sense where
  | ranged : String → Nat → Sense
  | special : String → Sense
deriving DecidableEq, Repr

/-- Challenge rating and XP. -/
structure ChallengeVal where
  cr : JSNum
  xp : Nat
deriving DecidableEq, Repr

/-- One named action/feature entry. -/
structure NamedEntry where
  name : String
  description : String
deriving DecidableEq, Repr

/-- `_extractType`. -/
def extractType (blocks : Blocks) : String :=
  match blocksGet blocks BlockId.racialDetails with
  | some (e :: _) =>
    match reMatch racialDetailsRE e.line with
    | some cs => JsStr.toLower ((capGet cs 2).getD "")
    | none => ""
  | _ => ""

/-- `_extractSize`. -/
def extractSize (blocks : Blocks) : String :=
  match blocksGet blocks BlockId.racialDetails with
  | some (e :: _) =>
    match reMatch racialDetailsRE e.line with
    | some cs => JsStr.toLower ((capGet cs 1).getD "")
    | none => ""
  | _ => ""

/-- `_extractAlignment`. -/
def extractAlignment (blocks : Blocks) : String :=
  match blocksGet blocks BlockId.racialDetails with
  | some (e :: _) =>
    match reMatch racialDetailsRE e.line with
    | some cs => JsStr.toLower ((capGet cs 5).getD "")
    | none => ""
  | _ => ""

/-- `_extractAC`: value 10 with empty formula when absent or unmatched. -/
def extractAC (blocks : Blocks) : AcHp :=
  match blocksGet blocks BlockId.armor with
  | some (e :: _) =>
    match reMatch armorRE e.line with
    | some cs => { value := natCap cs 1, formula := (capGet cs 2).getD "" }
    | none => { value := 10, formula := "" }
  | _ => { value := 10, formula := "" }

/-- `_extractHP`: value 0 with empty formula when absent or unmatched. -/
def extractHP (blocks : Blocks) : AcHp :=
  match blocksGet blocks BlockId.health with
  | some (e :: _) =>
    match reMatch healthRE e.line with
    | some cs => { value := natCap cs 1, formula := (capGet cs 2).getD "" }
    | none => { value := 0, formula := "" }
  | _ => { value := 0, formula := "" }

/-- The per-token speed pattern `/^(?:(\w+)\s+)?([\d]+)\s*(?:ft\.?|feet)?$/i`. -/
def speedTokenRE : Re := cat [
  opt (cat [grp 1 (plus1 (.cls jsWord)), ws1]),
  grp 2 digits1, ws0,
  opt (.alt (cat [litCI "ft", opt (chr '.')]) (litCI "feet")),
  eos]

/-- `_extractSpeed`. -/
def extractSpeed (blocks : Blocks) : List SpeedEntry :=
  match blocksGet blocks BlockId.speed with
  | some (e :: _) =>
    match reMatch speedRE e.line with
    | some cs =>
      let speedText := (capGet cs 1).getD ""
      ((JsStr.splitOn speedText ",").map JsStr.trim).foldl (fun acc tok =>
        match reMatch speedTokenRE tok with
        | some tcs =>
          acc ++ [{ type := match capGet tcs 1 with
                            | some t => JsStr.toLower t
                            | none => "walk",
                    value := natCap tcs 2 }]
        | none => acc) []
    | none => []
  | _ => []

/-- One iteration of the `_extractAbilities` loop: a line matching the
ability pattern stores its lower-cased abbreviation and score in the
insertion-ordered object, an unmatched line changes nothing. -/
def abilitiesStep (acc : List (String × Nat)) (a : TaggedLine) : List (String × Nat) :=
  match reMatch abilitiesRE a.line with
  | some cs =>
    let ty := JsStr.toLower ((capGet cs 1).getD "")
    let score := natCap cs 2
    if acc.any (fun p => p.1 == ty) then
      acc.map (fun p => if p.1 == ty then (ty, score) else p)
    else acc ++ [(ty, score)]
  | none => acc

/-- `_extractAbilities`: an insertion-ordered object of the matched scores
only (an ability whose line is absent or unmatched has no key). -/
def extractAbilities (blocks : Blocks) : List (String × Nat) :=
  match blocksGet blocks BlockId.abilities with
  | some (e :: rest) => (e :: rest).foldl abilitiesStep []
  | _ => []

/-- The per-token saving-throw pattern `/^(\w{3})\s+([+-]\d+)$/i`. -/
def saveTokenRE : Re := cat [
  grp 1 (repEx 3 (.cls jsWord)), ws1,
  grp 2 (cat [.cls (fun c => c == '+' || c == '-'), digits1]), eos]

/-- `_extractSavingThrows`. -/
def extractSavingThrows (blocks : Blocks) : List SaveEntry :=
  match blocksGet blocks BlockId.savingThrows with
  | some (e :: _) =>
    match reMatch savingThrowsRE e.line with
    | some cs =>
      ((JsStr.splitOn ((capGet cs 1).getD "") ",").map JsStr.trim).foldl (fun acc tok =>
        match reMatch saveTokenRE tok with
        | some tcs =>
          acc ++ [{ ability := JsStr.toLower ((capGet tcs 1).getD ""),
                    bonus := ((capGet tcs 2).getD "" |> jsParseInt).getD 0 }]
        | none => acc) []
    | none => []
  | _ => []

/-- The per-token skill pattern `/^([\w\s]+)\s+([+-]\d+)$/i`. -/
def skillTokenRE : Re := cat [
  grp 1 (plus1 wordOrSpace), ws1,
  grp 2 (cat [.cls (fun c => c == '+' || c == '-'), digits1]), eos]

/-- `_extractSkills`. -/
def extractSkills (blocks : Blocks) : List SkillEntry :=
  match blocksGet blocks BlockId.skills with
  | some (e :: _) =>
    match reMatch skillsRE e.line with
    | some cs =>
      ((JsStr.splitOn ((capGet cs 1).getD "") ",").map JsStr.trim).foldl (fun acc tok =>
        match reMatch skillTokenRE tok with
        | some tcs =>
          acc ++ [{ name := JsStr.trim ((capGet tcs 1).getD ""),
                    bonus := ((capGet tcs 2).getD "" |> jsParseInt).getD 0 }]
        | none => acc) []
    | none => []
  | _ => []

/-- The `regexMap` of `_extractDamageCondition`. -/
def dcRegexFor : BlockId → Option Re
  | .damageVulnerabilities => some damageVulnerabilitiesRE
  | .damageResistances => some damageResistancesRE
  | .damageImmunities => some damageImmunitiesRE
  | .conditionImmunities => some conditionImmunitiesRE
  | .immunities2024 => some immunities2024RE
  | _ => none

/-- `_extractDamageCondition`. -/
def extractDamageCondition (blocks : Blocks) (blockId : BlockId) : List String :=
  match blocksGet blocks blockId with
  | some (e :: _) =>
    match dcRegexFor blockId with
    | some r =>
      match reMatch r e.line with
      | some cs =>
        ((JsStr.splitOn ((capGet cs 1).getD "") ",").map (fun item => JsStr.toLower (JsStr.trim item)))
      | none => []
    | none => []
  | _ => []

/-- The per-token sense pattern `/^([\w\s]+)\s+([\d]+)\s*(?:ft\.?|feet)?$/i`. -/
def senseTokenRE : Re := cat [
  grp 1 (plus1 wordOrSpace), ws1, grp 2 digits1, ws0,
  opt (.alt (cat [litCI "ft", opt (chr '.')]) (litCI "feet")),
  eos]

/-- `_extractSenses`. -/
def extractSenses (blocks : Blocks) : List Sense :=
  match blocksGet blocks BlockId.senses with
  | some (e :: _) =>
    match reMatch sensesRE e.line with
    | some cs =>
      ((JsStr.splitOn ((capGet cs 1).getD "") ",").map JsStr.trim).foldl (fun acc tok =>
        match reMatch senseTokenRE tok with
        | some tcs =>
          acc ++ [Sense.ranged (JsStr.toLower (JsStr.trim ((capGet tcs 1).getD ""))) (natCap tcs 2)]
        | none => acc ++ [Sense.special (JsStr.toLower tok)]) []
    | none => []
  | _ => []

/-- `_extractLanguages`. -/
def extractLanguages (blocks : Blocks) : List String :=
  match blocksGet blocks BlockId.languages with
  | some (e :: _) =>
    match reMatch languagesRE e.line with
    | some cs => ((JsStr.splitOn ((capGet cs 1).getD "") ",").map JsStr.trim)
    | none => []
  | _ => []

/-- The CR computation of `_extractChallenge` applied to the matched CR
token: a fraction `a/b` is the JS quotient of its two `parseInt` values,
anything else is `parseInt` of the whole token. -/
def crOfString (s : String) : JSNum :=
  if JsStr.containsChar s '/' then
    match (JsStr.splitOn s "/").map jsParseNat with
    | some a :: some b :: _ => jsDiv a b
    | _ => JSNum.nan
  else
    match jsParseNat s with
    | some n => JSNum.num (n : ℚ)
    | none => JSNum.nan

/-- Spec-side wellformedness of a CR token (the claim's side condition): an
integral CR numeral, or a fraction whose denominator is a nonzero numeral. -/
def crTokenOk (s : String) : Bool :=
  if JsStr.containsChar s '/' then
    match (JsStr.splitOn s "/").map RegexEng.jsParseNat with
    | some _ :: some b :: _ => decide (b ≠ 0)
    | _ => false
  else (RegexEng.jsParseNat s).isSome

/-- The XP pattern `/(\d+(?:,\d+)*)/` (unanchored). -/
def xpRE : Re := grp 1 (cat [digits1, .star (cat [chr ',', digits1])])

/-- `_extractChallenge`: cr 0 and xp 0 when absent or unmatched. -/
def extractChallenge (blocks : Blocks) : ChallengeVal :=
  match blocksGet blocks BlockId.challenge with
  | some (e :: _) =>
    match reMatch challengeRE e.line with
    | some cs =>
      let cr := crOfString ((capGet cs 1).getD "")
      let xp :=
        match reSearch xpRE ((capGet cs 2).getD "") with
        | some xcs =>
          let digitsOnly := String.mk ((((capGet xcs 1).getD "").data).filter (fun c => !(c == ',')))
          (jsParseNat digitsOnly).getD 0
        | none => 0
      { cr := cr, xp := xp }
    | none => { cr := JSNum.num 0, xp := 0 }
  | _ => { cr := JSNum.num 0, xp := 0 }

/-- The named-entry title pattern `/^([^.]+)\.(.*)/i`: name before the first
period, description after it. -/
def titleRE : Re := cat [
  grp 1 (plus1 (notCls (fun c => c == '.'))), chr '.', grp 2 (.star dotAny)]

/-- The title match of one buffer line, as name/description strings. -/
def titleMatch (line : String) : Option (String × String) :=
  match reMatch titleRE line with
  | some cs => some ((capGet cs 1).getD "", (capGet cs 2).getD "")
  | none => none

/-- The loop of `_extractNamedEntries` over the lines after the header:
a title line flushes the current entry and starts a new one; other lines
extend the current entry's description with a space; lines before the first
title line are dropped. -/
def namedEntriesGo : List String → Option NamedEntry → List NamedEntry
  | [], some e => [e]
  | [], none => []
  | l :: rest, cur =>
    match titleMatch l with
    | some (n, d) =>
      match cur with
      | some e => e :: namedEntriesGo rest (some { name := JsStr.trim n, description := JsStr.trim d })
      | none => namedEntriesGo rest (some { name := JsStr.trim n, description := JsStr.trim d })
    | none =>
      match cur with
      | some e =>
        namedEntriesGo rest (some { e with description := e.description ++ " " ++ l })
      | none => namedEntriesGo rest none

/-- `_extractNamedEntries` on a section's line buffer: the first line is
skipped as the section header. -/
def extractNamedEntriesLines : List String → List NamedEntry
  | [] => []
  | _ :: rest => namedEntriesGo rest none

/-- `_extractNamedEntries(blocks, blockId)`. -/
def extractNamedEntries (blocks : Blocks) (blockId : BlockId) : List NamedEntry :=
  match blocksGet blocks blockId with
  | some (e :: rest) => extractNamedEntriesLines ((e :: rest).map (fun t => t.line))
  | _ => []

/-- `_extractOtherInfo`. -/
def extractOtherInfo (blocks : Blocks) : List String :=
  match blocksGet blocks BlockId.otherBlock with
  | some (e :: rest) => (e :: rest).map (fun t => t.line)
  | _ => []

/-- The assembled creature record (`monsterData`). -/
structure MonsterData where
  name : String
  type : String
  size : String
  alignment : String
  ac : AcHp
  hp : AcHp
  speed : List SpeedEntry
  abilities : List (String × Nat)
  savingThrows : List SaveEntry
  skills : List SkillEntry
  damageVulnerabilities : List String
  damageResistances : List String
  damageImmunities : List String
  conditionImmunities : List String
  senses : List Sense
  languages : List String
  challenge : ChallengeVal
  features : List NamedEntry
  actions : List NamedEntry
  bonusActions : List NamedEntry
  reactions : List NamedEntry
  legendaryActions : List NamedEntry
  lairActions : List NamedEntry
  mythicActions : List NamedEntry
  villainActions : List NamedEntry
  otherInfo : List String
deriving DecidableEq, Repr

/-- Modelled from the spec: `spbiUtils.stripMarkdownAndCleanInput`, imported
from `spbiUtils.js`, is not among the provided sources.  The spec only
requires the text-acquisition side to deliver best-effort plain newline-
delimited text, so the markdown-stripping cleanup is modelled as the
identity on already-plain text. -/
def stripMarkdownAndCleanInput (text : String) : String := text

/-- `_cleanInput`: markdown cleanup, then the `removeNewLines` global replace
that joins a known header with its following line. -/
def cleanInput (text : String) : String :=
  reReplaceAll removeNewLinesRE (fun cs => ((capGet cs 1).getD "") ++ " ")
    (stripMarkdownAndCleanInput text)

/-- The non-blank trimmed lines of a text, as computed by `parseMonster`. -/
def nonBlankLines (cleanedText : String) : List String :=
  ((JsStr.splitOn cleanedText "\n").map JsStr.trim).filter (fun line => line.length > 0)

/-- `parseMonster`: cleans the input, splits it into non-blank lines, fails
with "No content to parse" when none remain, otherwise takes the first line
as the name and assembles the record from the tagged blocks of the rest. -/
def parseMonster (content : String) : Except String MonsterData :=
  let cleanedText := cleanInput content
  let lines := nonBlankLines cleanedText
  match lines with
  | [] => Except.error "No content to parse"
  | nm :: rest =>
    let blocks := parseIntoBlocks rest
    Except.ok {
      name := nm,
      type := extractType blocks,
      size := extractSize blocks,
      alignment := extractAlignment blocks,
      ac := extractAC blocks,
      hp := extractHP blocks,
      speed := extractSpeed blocks,
      abilities := extractAbilities blocks,
      savingThrows := extractSavingThrows blocks,
      skills := extractSkills blocks,
      damageVulnerabilities := extractDamageCondition blocks BlockId.damageVulnerabilities,
      damageResistances := extractDamageCondition blocks BlockId.damageResistances,
      damageImmunities := extractDamageCondition blocks BlockId.damageImmunities,
      conditionImmunities := extractDamageCondition blocks BlockId.conditionImmunities,
      senses := extractSenses blocks,
      languages := extractLanguages blocks,
      challenge := extractChallenge blocks,
      features := extractNamedEntries blocks BlockId.features,
      actions := extractNamedEntries blocks BlockId.actions,
      bonusActions := extractNamedEntries blocks BlockId.bonusActions,
      reactions := extractNamedEntries blocks BlockId.reactions,
      legendaryActions := extractNamedEntries blocks BlockId.legendaryActions,
      lairActions := extractNamedEntries blocks BlockId.lairActions,
      mythicActions := extractNamedEntries blocks BlockId.mythicActions,
      villainActions := extractNamedEntries blocks BlockId.villainActions,
      otherInfo := extractOtherInfo blocks }

end monsterParser

namespace contentDetector

open RegexEng RegexEng.Re

/-- `[\w\s'-]`: the name-line class of the structural block patterns. -/
def nameCls : Re := .cls (fun c => jsWord c || jsSpace c || c == Char.ofNat 39 || c == '-')

/-- `(?:\r?\n)`. -/
def crlf : Re := cat [opt (chr '\r'), chr '\n']

/-- `(?:\d+)(?:st|nd|rd|th)`. -/
def ordinal : Re := cat [digits1, altL [litCI "st", litCI "nd", litCI "rd", litCI "th"]]

/-- The spell-school alternation. -/
def schools : Re := altL [litCI "abjuration", litCI "conjuration", litCI "divination",
  litCI "enchantment", litCI "evocation", litCI "illusion", litCI "necromancy",
  litCI "transmutation"]

/-- `#spellBlockPattern` (flags `/im`). -/
def spellBlockPattern : Re := cat [
  grp 1 (plus1 nameCls), ws0, crlf,
  grp 2 (cat [opt ordinal, opt (.cls (fun c => c == '-' || jsSpace c)), opt (litCI "level"),
              ws0, schools, ws0, opt (.alt (litCI "spell") (litCI "cantrip")),
              opt (cat [ws0, chr '(', litCI "ritual", chr ')'])]),
  ws0, crlf]

/-- The item-type alternation of `#itemBlockPattern`. -/
def itemTypes : Re := altL [litCI "wondrous item", litCI "armor", litCI "weapon",
  litCI "ring", litCI "rod", litCI "staff", litCI "wand", litCI "potion",
  litCI "scroll", litCI "tool", litCI "kit", litCI "supplies", litCI "instrument"]

/-- The rarity alternation of `#itemBlockPattern`. -/
def rarities : Re := altL [litCI "uncommon", litCI "common", litCI "rare",
  litCI "very rare", litCI "legendary", litCI "artifact"]

/-- `#itemBlockPattern` (flags `/im`). -/
def itemBlockPattern : Re := cat [
  grp 1 (plus1 nameCls), ws0, crlf,
  grp 2 (cat [opt itemTypes, ws0,
              opt (cat [chr '(', plus1 monsterParser.wordOrSpace, chr ')']), ws0,
              opt (chr ','), ws0, opt rarities]),
  ws0, crlf]

/-- The size alternation. -/
def sizes : Re := altL [litCI "tiny", litCI "small", litCI "medium", litCI "large",
  litCI "huge", litCI "gargantuan"]

/-- The creature-type alternation. -/
def creatureTypes : Re := altL [litCI "aberration", litCI "beast", litCI "celestial",
  litCI "construct", litCI "dragon", litCI "elemental", litCI "fey", litCI "fiend",
  litCI "giant", litCI "humanoid", litCI "monstrosity", litCI "ooze", litCI "plant",
  litCI "undead"]

/-- The alignment alternation of `#monsterBlockPattern` (with `unaligned`
first, as written there). -/
def alignments : Re := altL [litCI "unaligned", litCI "lawful good",
  litCI "neutral good", litCI "chaotic good", litCI "lawful neutral", litCI "neutral",
  litCI "chaotic neutral", litCI "lawful evil", litCI "neutral evil",
  litCI "chaotic evil", litCI "any alignment", litCI "any non-good alignment",
  litCI "any non-lawful alignment", litCI "any chaotic alignment"]

/-- `#monsterBlockPattern` (flags `/im`). -/
def monsterBlockPattern : Re := cat [
  grp 1 (plus1 nameCls), ws0, crlf,
  grp 2 (cat [cat [sizes, ws1, creatureTypes], ws0,
              opt (cat [chr '(', plus1 (notCls (fun c => c == ')')), chr ')']), ws0,
              opt (chr ','), ws0, opt alignments]),
  ws0, crlf]

/-- `#classFeaturePattern` (flags `/im`). -/
def classFeaturePattern : Re := cat [
  grp 1 (plus1 nameCls), ws0, crlf,
  grp 2 (cat [opt ordinal, opt (.cls (fun c => c == '-' || jsSpace c)), litCI "level",
              ws0, .alt (litCI "feature") (litCI "class feature")]),
  ws0, crlf]

/-- `#featPattern` (flags `/im`). -/
def featPattern : Re := cat [
  grp 1 (plus1 nameCls), ws0, crlf,
  grp 2 (.alt (litCI "feat") (litCI "prerequisite:")),
  ws0, crlf]

/-- `#backgroundPattern` (flags `/im`). -/
def backgroundPattern : Re := cat [
  grp 1 (plus1 nameCls), ws0, crlf, grp 2 (litCI "background"), ws0, crlf]

/-- `/armor class\s+\d+|hit points\s+\d+\s*\([\dd\+\s]+\)/i`. -/
def acHpHeuristic : Re := .alt
  (cat [litCI "armor class", ws1, digits1])
  (cat [litCI "hit points", ws1, digits1, ws0, chr '(',
        plus1 (.cls (fun c => c.isDigit || c.toLower == 'd' || c == '+' || jsSpace c)),
        chr ')'])

/-- One `ABBR score (modifier)` shape. -/
def abilityScoreShape : Re := cat [
  altL [litCI "str", litCI "dex", litCI "con", litCI "int", litCI "wis", litCI "cha"],
  ws1, digits1, ws0, chr '(', .cls (fun c => c == '+' || c == '-'), digits1, chr ')']

/-- `/str\s+\d+\s*\([+-]\d+\)|dex\s+\d+\s*\([+-]\d+\)/i`. -/
def strDexHeuristic : Re := .alt
  (cat [litCI "str", ws1, digits1, ws0, chr '(', .cls (fun c => c == '+' || c == '-'),
        digits1, chr ')'])
  (cat [litCI "dex", ws1, digits1, ws0, chr '(', .cls (fun c => c == '+' || c == '-'),
        digits1, chr ')'])

/-- The ability-pair heuristic (leading `\b`, flag `/i`). -/
def abilityPairHeuristic : Re := cat [
  grp 1 (altL [litCI "str", litCI "dex", litCI "con", litCI "int", litCI "wis",
               litCI "cha"]),
  ws1, digits1, ws0, chr '(', .cls (fun c => c == '+' || c == '-'), digits1, chr ')',
  ws1,
  grp 2 (altL [litCI "str", litCI "dex", litCI "con", litCI "int", litCI "wis",
               litCI "cha"]),
  ws1, digits1, ws0, chr '(', .cls (fun c => c == '+' || c == '-'), digits1, chr ')']

/-- `/challenge\s+([\d\/]+)\s*\([\d,]+\s*xp\)/i`. -/
def challengeHeuristic : Re := cat [
  litCI "challenge", ws1, grp 1 (plus1 (.cls (fun c => c.isDigit || c == '/'))),
  ws0, chr '(', plus1 (.cls (fun c => c.isDigit || c == ',')), ws0, litCI "xp",
  chr ')']

/-- `/casting time|components|duration|range/i`. -/
def spellKeywords : Re := altL [litCI "casting time", litCI "components",
  litCI "duration", litCI "range"]

/-- `/(?:tool|kit|supplies)/i`. -/
def toolWords : Re := altL [litCI "tool", litCI "kit", litCI "supplies"]

/-- `/(?:artisan|thieves|herbalism|musical instrument)/i`. -/
def toolKindWords : Re := altL [litCI "artisan", litCI "thieves", litCI "herbalism",
  litCI "musical instrument"]

/-- `/(?:weapon|sword|axe|bow|crossbow)/i`. -/
def weaponWords : Re := altL [litCI "weapon", litCI "sword", litCI "axe", litCI "bow",
  litCI "crossbow"]

/-- `/(?:damage|attack|range|properties)/i`. -/
def combatWords : Re := altL [litCI "damage", litCI "attack", litCI "range",
  litCI "properties"]

/-- `/(?:armor|shield|plate|mail)/i`. -/
def armorWords : Re := altL [litCI "armor", litCI "shield", litCI "plate", litCI "mail"]

/-- `/(?:ac|armor class)/i`. -/
def acWords : Re := .alt (litCI "ac") (litCI "armor class")

/-- `/(?:wondrous item|armor|weapon|ring|rod|staff|wand|potion|scroll)/i`. -/
def itemNouns : Re := altL [litCI "wondrous item", litCI "armor", litCI "weapon",
  litCI "ring", litCI "rod", litCI "staff", litCI "wand", litCI "potion",
  litCI "scroll"]

/-- `/(?:attunement|rarity|requires)/i`. -/
def itemQualifiers : Re := altL [litCI "attunement", litCI "rarity", litCI "requires"]

/-- `/armor class|hit points|speed|str|dex|con|int|wis|cha/i`. -/
def monsterNouns : Re := altL [litCI "armor class", litCI "hit points", litCI "speed",
  litCI "str", litCI "dex", litCI "con", litCI "int", litCI "wis", litCI "cha"]

/-- `/(?:actions|legendary actions|lair actions)/i`. -/
def actionWords : Re := altL [litCI "actions", litCI "legendary actions",
  litCI "lair actions"]

/-- `/background/i`. -/
def backgroundWord : Re := litCI "background"

/-- `/(?:skill proficiencies|feature:|equipment|suggested characteristics)/i`. -/
def backgroundQualifiers : Re := altL [litCI "skill proficiencies", litCI "feature:",
  litCI "equipment", litCI "suggested characteristics"]

/-- `_identifyBlockType`: the classification cascade, in source order. -/
def identifyBlockType (block : String) : Option String :=
  if reSearchLinesTest spellBlockPattern block then some "spell"
  else if reSearchLinesTest itemBlockPattern block then some "item"
  else if reSearchLinesTest monsterBlockPattern block then some "monster"
  else if reSearchTest acHpHeuristic block && reSearchTest strDexHeuristic block then
    some "monster"
  else if reSearchBoundaryTest abilityPairHeuristic block then some "monster"
  else if reSearchTest challengeHeuristic block then some "monster"
  else if reSearchLinesTest classFeaturePattern block then some "classFeature"
  else if reSearchLinesTest featPattern block then some "feat"
  else if reSearchLinesTest backgroundPattern block then some "background"
  else if reSearchTest spellKeywords block && reSearchTest schools block then
    some "spell"
  else if reSearchTest toolWords block && reSearchTest toolKindWords block then
    some "item"
  else if reSearchTest weaponWords block && reSearchTest combatWords block then
    some "item"
  else if reSearchTest armorWords block && reSearchTest acWords block then
    some "item"
  else if reSearchTest itemNouns block && reSearchTest itemQualifiers block then
    some "item"
  else if reSearchTest monsterNouns block && reSearchTest actionWords block then
    some "monster"
  else if reSearchTest backgroundWord block && reSearchTest backgroundQualifiers block then
    some "background"
  else none

/-- `/\n{3,}/g`. -/
def sepNewlines : Re := cat [chr '\n', chr '\n', chr '\n', .star (chr '\n')]

/-- `/\n[-_]{3,}\n/g`. -/
def sepRule : Re :=
  let dash : Re := .cls (fun c => c == '-' || c == '_')
  cat [chr '\n', dash, dash, dash, .star dash, chr '\n']

/-- `/\n[\s]*\d+[\s]*\n/g`. -/
def sepPageNumber : Re := cat [chr '\n', ws0, digits1, ws0, chr '\n']

/-- `/\n[\s]*•[\s]*\n/g`. -/
def sepBullet : Re := cat [chr '\n', ws0, chr (Char.ofNat 8226), ws0, chr '\n']

/-- The canonical separator token inserted by `_splitIntoBlocks`. -/
def sepMarker : String := "###BLOCK_SEPARATOR###"

/-- `/^[A-Z][A-Z\s]+$/` (full line of capitals). -/
def allCapsLine : Re := cat [monsterParser.upperAZ,
  plus1 (.cls (fun c => ('A' ≤ c && c ≤ 'Z') || jsSpace c)), eos]

/-- `/(?:spell|cantrip|item|weapon|armor|monster|feat)/i`. -/
def genreWords : Re := altL [litCI "spell", litCI "cantrip", litCI "item",
  litCI "weapon", litCI "armor", litCI "monster", litCI "feat"]

/-- `/^[A-Z][a-z]+(?:\s+[A-Z][a-z]+)*$/`. -/
def titleCaseLine : Re :=
  let lower : Re := .cls (fun c => 'a' ≤ c && c ≤ 'z')
  cat [monsterParser.upperAZ, plus1 lower,
       .star (cat [ws1, monsterParser.upperAZ, plus1 lower]), eos]

/-- `/(?:\d+(?:st|nd|rd|th)[-\s]level|cantrip)\s+(?:school)/i`. -/
def spellSignatureContext : Re := cat [
  .alt (cat [digits1, altL [litCI "st", litCI "nd", litCI "rd", litCI "th"],
             .cls (fun c => c == '-' || jsSpace c), litCI "level"])
       (litCI "cantrip"),
  ws1, schools]

/-- `/(?:item types)\s*(?:,)?\s*(?:rarity)/i` of `_looksLikeBlockStart`. -/
def itemSignatureContext : Re := cat [itemNouns, ws0, opt (chr ','), ws0, rarities]

/-- `/(?:size)\s+(?:creature type)/i` of `_looksLikeBlockStart`. -/
def monsterSignatureContext : Re := cat [sizes, ws1, creatureTypes]

/-- `_looksLikeBlockStart(line, context)`. -/
def looksLikeBlockStart (line context : String) : Bool :=
  (reTest allCapsLine line && reSearchTest genreWords context) ||
  (reTest titleCaseLine line && reSearchTest spellSignatureContext context) ||
  (reTest titleCaseLine line && reSearchTest itemSignatureContext context) ||
  (reTest titleCaseLine line && reSearchTest monsterSignatureContext context)

/-- The inner loop of `_refineBlocks` over one block. -/
def refineBlock (b : String) : List String :=
  let lines := JsStr.splitOn b "\n"
  let step := fun (acc : List String × String × Nat) (il : Nat × String) =>
    let out := acc.1
    let cur := acc.2.1
    let blockStart := acc.2.2
    let i := il.1
    let line := JsStr.trim il.2
    if i > blockStart + 3 &&
        looksLikeBlockStart line (JsStr.join "\n" ((lines.drop i).take 3)) then
      ((if (JsStr.trim cur).length > 0 then out ++ [JsStr.trim cur] else out), line, i)
    else
      (out, cur ++ "\n" ++ line, blockStart)
  let fin := lines.enum.foldl step ([], "", 0)
  if (JsStr.trim fin.2.1).length > 0 then fin.1 ++ [JsStr.trim fin.2.1] else fin.1

/-- `_refineBlocks`. -/
def refineBlocks (bs : List String) : List String :=
  bs.foldl (fun acc b => if (JsStr.trim b).length == 0 then acc else acc ++ refineBlock b) []

/-- `_splitIntoBlocks`: normalise the four separator shapes to the marker,
split on the marker, then refine. -/
def splitIntoBlocks (text : String) : List String :=
  let marker := "\n" ++ sepMarker ++ "\n"
  let p1 := reReplaceAll sepNewlines (fun _ => marker) text
  let p2 := reReplaceAll sepRule (fun _ => marker) p1
  let p3 := reReplaceAll sepPageNumber (fun _ => marker) p2
  let p4 := reReplaceAll sepBullet (fun _ => marker) p3
  refineBlocks (JsStr.splitOn p4 sepMarker)

/-- A detected content block: its kind tag and trimmed content. -/
structure ContentBlock where
  type : String
  content : String
deriving DecidableEq, Repr

/-- `detectContentBlocks`. -/
def detectContentBlocks (text : String) : List ContentBlock :=
  (splitIntoBlocks text).foldl (fun acc block =>
    if (JsStr.trim block).length < 10 then acc
    else
      match identifyBlockType block with
      | some ty => acc ++ [{ type := ty, content := JsStr.trim block }]
      | none => acc) []

end contentDetector

namespace contentParser

open RegexEng RegexEng.Re

/-- The six ability scores of `contentParser._extractAbilityScores`, every
field initialised to 10. -/
structure AbilityScores where
  str : Nat
  dex : Nat
  con : Nat
  int : Nat
  wis : Nat
  cha : Nat
deriving DecidableEq, Repr

/-- `/str|dex|con|int|wis|cha/i`. -/
def abilityMention : Re := altL [litCI "str", litCI "dex", litCI "con", litCI "int",
  litCI "wis", litCI "cha"]

/-- `/abbr\s*[:\t]?\s*(\d+)/i` for one ability abbreviation. -/
def scoreRE (abbr : String) : Re := cat [
  litCI abbr, ws0, opt (.cls (fun c => c == ':' || c == '\t')), ws0, grp 1 digits1]

/-- One iteration of the `_extractAbilityScores` loop: a line that mentions
an ability abbreviation may overwrite any of the six scores via an
unanchored per-ability search; other lines change nothing. -/
def scoreStep (ab : AbilityScores) (line : String) : AbilityScores :=
  if (reSearch abilityMention line).isSome then
    let upd := fun (abbr : String) (old : Nat) =>
      match reSearch (scoreRE abbr) line with
      | some cs => natCap cs 1
      | none => old
    { str := upd "str" ab.str, dex := upd "dex" ab.dex, con := upd "con" ab.con,
      int := upd "int" ab.int, wis := upd "wis" ab.wis, cha := upd "cha" ab.cha }
  else ab

/-- `_extractAbilityScores`: all six scores start at 10 and are updated line
by line. -/
def extractAbilityScores (lines : List String) : AbilityScores :=
  lines.foldl scoreStep
    { str := 10, dex := 10, con := 10, int := 10, wis := 10, cha := 10 }

end contentParser

/-- The splitter+classifier+parser pipeline on one document: detect blocks,
then run the monster statblock parser on each block classified `monster`. -/
def runPipeline (text : String) :
    List (contentDetector.ContentBlock × Option (Except String monsterParser.MonsterData)) :=
  (contentDetector.detectContentBlocks text).map (fun b =>
    (b, if b.type == "monster" then some (monsterParser.parseMonster b.content) else none))

section BlocksLemmas

open monsterParser

theorem blocksGet_set_self (bs : Blocks) (k : BlockId) (v : List TaggedLine) :
    blocksGet (blocksSet bs k v) k = some v := by
  induction bs with
  | nil => simp [blocksSet, blocksGet]
  | cons p t ih =>
    by_cases hp : p.1 = k
    · simp [blocksSet, blocksGet, hp]
    · simp [blocksSet, blocksGet, hp, ih]

theorem blocksGet_set_ne (bs : Blocks) (k k' : BlockId) (v : List TaggedLine)
    (h : ¬ k' = k) :
    blocksGet (blocksSet bs k v) k' = blocksGet bs k' := by
  have hk : ¬ k = k' := fun hh => h hh.symm
  induction bs with
  | nil => simp [blocksSet, blocksGet, hk]
  | cons p t ih =>
    by_cases hp : p.1 = k
    · have hpk : ¬ p.1 = k' := by
        rw [hp]; exact hk
      simp [blocksSet, blocksGet, hp, hpk, hk]
    · by_cases hq : p.1 = k' <;> simp [blocksSet, blocksGet, hp, hq, ih, h]

theorem blocksGet_push_self (bs : Blocks) (k : BlockId) (e : TaggedLine) :
    blocksGet (blocksPush bs k e) k = (blocksGet bs k).map (fun l => l ++ [e]) := by
  induction bs with
  | nil => simp [blocksGet, blocksPush]
  | cons p t ih =>
    by_cases hp : p.1 = k
    · simp [blocksGet, blocksPush, hp]
    · simp [blocksGet, blocksPush, hp, ih]

theorem blocksGet_push_ne (bs : Blocks) (k k' : BlockId) (e : TaggedLine)
    (h : ¬ k' = k) :
    blocksGet (blocksPush bs k e) k' = blocksGet bs k' := by
  have hk : ¬ k = k' := fun hh => h hh.symm
  induction bs with
  | nil => simp [blocksGet, blocksPush]
  | cons p t ih =>
    by_cases hp : p.1 = k
    · have hpk : ¬ p.1 = k' := by
        rw [hp]; exact hk
      simp [blocksGet, blocksPush, hp, hpk, hk]
    · by_cases hq : p.1 = k' <;> simp [blocksGet, blocksPush, hp, hq, ih, h]

theorem blocksHas_set_self (bs : Blocks) (k : BlockId) (v : List TaggedLine) :
    blocksHas (blocksSet bs k v) k = true := by
  simp [blocksHas, blocksGet_set_self]

end BlocksLemmas

/-- C2: six consecutive ability-score lines are all accumulated into the one
AbilityScores section (a later ability line does not open a new section), and
the run ends exactly at the next different section header, here the saving
throws line, which becomes the current section.  Each of the six lines
individually matches the ability pattern, and the saving-throws line matches
a different header. -/
theorem c2_ability_run_one_section :
    monsterParser.parseIntoBlocks
        ["STR 18 (+4)", "DEX 12 (+1)", "CON 14 (+2)", "INT 10 (+0)",
         "WIS 11 (+0)", "CHA 8 (-1)", "Saving Throws Dex +4"] =
      [(monsterParser.BlockId.abilities,
        [⟨0, "STR 18 (+4)"⟩, ⟨1, "DEX 12 (+1)"⟩, ⟨2, "CON 14 (+2)"⟩,
         ⟨3, "INT 10 (+0)"⟩, ⟨4, "WIS 11 (+0)"⟩, ⟨5, "CHA 8 (-1)"⟩]),
       (monsterParser.BlockId.savingThrows, [⟨6, "Saving Throws Dex +4"⟩])] ∧
    (["STR 18 (+4)", "DEX 12 (+1)", "CON 14 (+2)", "INT 10 (+0)",
      "WIS 11 (+0)", "CHA 8 (-1)"].all
        (fun l => RegexEng.reTest monsterParser.abilitiesRE l)) = true ∧
    monsterParser.getFirstMatch "Saving Throws Dex +4" [monsterParser.BlockId.abilities] =
      some monsterParser.BlockId.savingThrows := by
  decide

theorem jsDiv_pos_den (a b : Nat) (h : b ≠ 0) :
    jsDiv a b = JSNum.num ((a : ℚ) / (b : ℚ)) := by
  simp [jsDiv, h]

theorem crOfString_frac (s : String) (a b : Nat)
    (h1 : JsStr.containsChar s '/' = true)
    (h2 : (JsStr.splitOn s "/").map RegexEng.jsParseNat = [some a, some b]) :
    monsterParser.crOfString s = jsDiv a b := by
  simp [monsterParser.crOfString, h1, h2]

theorem extractChallenge_singleton (i : Nat) (line : String) (cs : RegexEng.Caps)
    (hm : RegexEng.reMatch monsterParser.challengeRE line = some cs) :
    monsterParser.extractChallenge [(monsterParser.BlockId.challenge, [⟨i, line⟩])] =
      { cr := monsterParser.crOfString ((RegexEng.capGet cs 1).getD ""),
        xp := match RegexEng.reSearch monsterParser.xpRE ((RegexEng.capGet cs 2).getD "") with
              | some xcs =>
                (RegexEng.jsParseNat (String.mk
                  ((((RegexEng.capGet xcs 1).getD "").data).filter (fun c => !(c == ','))))).getD 0
              | none => 0 } := by
  simp [monsterParser.extractChallenge, monsterParser.blocksGet, hm]

/-- C6: the challenge line `Challenge 1/4 (50 XP)` parses to the exact
rational quotient 1/4 = 0.25 with XP 50; a grouped-digit XP number has its
commas stripped (`Challenge 10 (5,900 XP)` gives XP 5900); the fraction 1/2
likewise parses to its quotient. -/
theorem c6_challenge_fraction_and_xp :
    monsterParser.extractChallenge
        [(monsterParser.BlockId.challenge, [⟨0, "Challenge 1/4 (50 XP)"⟩])] =
      { cr := JSNum.num ((1 : ℚ) / 4), xp := 50 } ∧
    monsterParser.extractChallenge
        [(monsterParser.BlockId.challenge, [⟨0, "Challenge 1/2 (100 XP)"⟩])] =
      { cr := JSNum.num ((1 : ℚ) / 2), xp := 100 } ∧
    monsterParser.extractChallenge
        [(monsterParser.BlockId.challenge, [⟨0, "Challenge 10 (5,900 XP)"⟩])] =
      { cr := JSNum.num 10, xp := 5900 } := by
  refine ⟨?_, ?_, ?_⟩
  · rw [extractChallenge_singleton 0 _ [(2, "50 XP"), (1, "1/4")] (by decide)]
    simp only [monsterParser.ChallengeVal.mk.injEq]
    constructor
    · rw [show ((RegexEng.capGet [(2, "50 XP"), (1, "1/4")] 1).getD "") = "1/4" from rfl]
      rw [crOfString_frac "1/4" 1 4 (by decide) (by decide), jsDiv_pos_den 1 4 (by decide)]
      norm_num
    · decide
  · rw [extractChallenge_singleton 0 _ [(2, "100 XP"), (1, "1/2")] (by decide)]
    simp only [monsterParser.ChallengeVal.mk.injEq]
    constructor
    · rw [show ((RegexEng.capGet [(2, "100 XP"), (1, "1/2")] 1).getD "") = "1/2" from rfl]
      rw [crOfString_frac "1/2" 1 2 (by decide) (by decide), jsDiv_pos_den 1 2 (by decide)]
      norm_num
    · decide
  · rw [extractChallenge_singleton 0 _ [(2, "5,900 XP"), (1, "10")] (by decide)]
    simp only [monsterParser.ChallengeVal.mk.injEq]
    constructor
    · rw [show ((RegexEng.capGet [(2, "5,900 XP"), (1, "10")] 1).getD "") = "10" from rfl]
      have h1 : JsStr.containsChar "10" '/' = false := by decide
      have h2 : RegexEng.jsParseNat "10" = some 10 := by decide
      simp [monsterParser.crOfString, h1, h2]
    · decide

/-- C4: the two-line section body `Multiattack. ... / Bite. ...` yields
exactly two named entries, neither merged nor fragmented; in general, inside
a section buffer a title-shaped line starts a new entry (flushing the
previous one) and a non-matching line is appended, space-joined, to the
current entry's description. -/
theorem c4_named_entries_two_and_continuation :
    monsterParser.extractNamedEntriesLines
        ["Actions", "Multiattack. The creature makes two attacks.",
         "Bite. Melee Weapon Attack: +5 to hit, reach 5 ft., one target."] =
      [{ name := "Multiattack", description := "The creature makes two attacks." },
       { name := "Bite",
         description := "Melee Weapon Attack: +5 to hit, reach 5 ft., one target." }] ∧
    (∀ hdr l c rest n d,
       monsterParser.titleMatch l = some (n, d) →
       monsterParser.titleMatch c = none →
       monsterParser.extractNamedEntriesLines (hdr :: l :: c :: rest) =
         monsterParser.namedEntriesGo rest
           (some { name := JsStr.trim n, description := JsStr.trim d ++ " " ++ c })) ∧
    (∀ hdr l l2 rest n d n2 d2,
       monsterParser.titleMatch l = some (n, d) →
       monsterParser.titleMatch l2 = some (n2, d2) →
       monsterParser.extractNamedEntriesLines (hdr :: l :: l2 :: rest) =
         { name := JsStr.trim n, description := JsStr.trim d } ::
           monsterParser.namedEntriesGo rest
             (some { name := JsStr.trim n2, description := JsStr.trim d2 })) := by
  refine ⟨by decide, ?_, ?_⟩
  · intro hdr l c rest n d h1 h2
    simp [monsterParser.extractNamedEntriesLines, monsterParser.namedEntriesGo, h1, h2]
  · intro hdr l l2 rest n d n2 d2 h1 h2
    simp [monsterParser.extractNamedEntriesLines, monsterParser.namedEntriesGo, h1, h2]

/-- Witness for C4: a concrete continuation line is appended to the entry
opened by the preceding title line. -/
theorem c4_named_entries_witness :
    monsterParser.titleMatch "Club. Melee attack." = some ("Club", " Melee attack.") ∧
    monsterParser.titleMatch "Extra sentence" = none ∧
    monsterParser.extractNamedEntriesLines
        ["Actions", "Club. Melee attack.", "Extra sentence"] =
      [{ name := "Club", description := "Melee attack. Extra sentence" }] := by
  refine ⟨by decide, by decide, ?_⟩
  rw [c4_named_entries_two_and_continuation.2.1 "Actions" "Club. Melee attack."
    "Extra sentence" [] "Club" " Melee attack." (by decide) (by decide)]
  decide

/-- C10: the first line of a section buffer is always skipped as the header
(the result does not depend on it at all), lines before the first title line
belong to no entry and are dropped, and a buffer whose first line is itself
a titled entry loses that entry. -/
theorem c10_header_line_skipped :
    (∀ a b rest, monsterParser.extractNamedEntriesLines (a :: rest) =
       monsterParser.extractNamedEntriesLines (b :: rest)) ∧
    (∀ hdr c rest, monsterParser.titleMatch c = none →
       monsterParser.extractNamedEntriesLines (hdr :: c :: rest) =
       monsterParser.extractNamedEntriesLines (hdr :: rest)) ∧
    monsterParser.extractNamedEntriesLines
        ["Multiattack. The creature makes two attacks.",
         "Bite. Melee Weapon Attack: +5 to hit."] =
      [{ name := "Bite", description := "Melee Weapon Attack: +5 to hit." }] := by
  refine ⟨fun a b rest => rfl, ?_, by decide⟩
  intro hdr c rest h
  simp [monsterParser.extractNamedEntriesLines, monsterParser.namedEntriesGo, h]

/-- Witness for C10: a non-title line right after the header is absent from
the result. -/
theorem c10_header_line_skipped_witness :
    monsterParser.titleMatch "no title shape here" = none ∧
    monsterParser.extractNamedEntriesLines
        ["Actions", "no title shape here", "Bite. Hits."] =
      monsterParser.extractNamedEntriesLines ["Actions", "Bite. Hits."] :=
  ⟨by decide,
   c10_header_line_skipped.2.1 "Actions" "no title shape here" ["Bite. Hits."] (by decide)⟩

/-- C8: the embedded pipeline is a pure function of its input text — running
the splitter+classifier, the statblock parser, or their composition twice on
the same string gives identical results (there is no hidden mutable state in
the embedding, mirroring the source, whose only shared data are read-only
static patterns). -/
theorem c8_pipeline_deterministic :
    ∀ text : String,
      runPipeline text = runPipeline text ∧
      contentDetector.detectContentBlocks text = contentDetector.detectContentBlocks text ∧
      monsterParser.parseMonster text = monsterParser.parseMonster text :=
  fun _ => ⟨rfl, rfl, rfl⟩

/-- C7 counterexample: this block contains the spell-school phrase
`evocation` (and the word `damage`) and no armor-class, hit-point, or
ability-score lines, yet the classifier does not classify it as Spell (it
matches no structural signature and no fallback heuristic, so it returns no
kind at all). -/
theorem c7_school_without_signature_counterexample :
    RegexEng.reSearchTest contentDetector.schools
        "evocation damage mentioned in passing no more" = true ∧
    RegexEng.reSearchTest contentDetector.acHpHeuristic
        "evocation damage mentioned in passing no more" = false ∧
    RegexEng.reSearchTest contentDetector.strDexHeuristic
        "evocation damage mentioned in passing no more" = false ∧
    RegexEng.reSearchBoundaryTest contentDetector.abilityPairHeuristic
        "evocation damage mentioned in passing no more" = false ∧
    ¬ contentDetector.identifyBlockType
        "evocation damage mentioned in passing no more" = some "spell" := by
  decide

/-- C7 amended: a block matching the spell structural signature (a name line
followed by a school line) is always classified Spell and never Monster,
because the spell signature is tested before every monster test; merely
containing a school phrase does not guarantee the Spell classification. -/
theorem c7_spell_signature_classifies_spell :
    ∀ block : String,
      RegexEng.reSearchLinesTest contentDetector.spellBlockPattern block = true →
      contentDetector.identifyBlockType block = some "spell" ∧
      ¬ contentDetector.identifyBlockType block = some "monster" := by
  intro block h
  have h1 : contentDetector.identifyBlockType block = some "spell" := by
    simp [contentDetector.identifyBlockType, h]
  exact ⟨h1, by rw [h1]; decide⟩

/-- Witness for C7's amended theorem at a concrete well-formed spell block. -/
theorem c7_spell_signature_witness :
    RegexEng.reSearchLinesTest contentDetector.spellBlockPattern
        "Fireball\n3rd-level evocation\nA bright streak flashes." = true ∧
    contentDetector.identifyBlockType
        "Fireball\n3rd-level evocation\nA bright streak flashes." = some "spell" :=
  ⟨by decide,
   (c7_spell_signature_classifies_spell
     "Fireball\n3rd-level evocation\nA bright streak flashes." (by decide)).1⟩

/-- C9 counterexample: the challenge line `Challenge 0/0 (0 XP)` is accepted
by the challenge pattern, and the parsed record's challenge rating is the JS
division 0/0 = NaN, which is not a non-negative rational. -/
theorem c9_cr_nan_counterexample :
    (monsterParser.parseMonster "Goblin\nChallenge 0/0 (0 XP)").map
        (fun m => (m.challenge.cr, JSNum.isNonnegRat m.challenge.cr)) =
      Except.ok (JSNum.nan, false) := by
  decide

/-- C9 amended: the challenge rating is a finite non-negative rational for
every CR token that is an integer numeral or a fraction with nonzero
denominator; a zero denominator instead produces the JS non-rational
Infinity or NaN. -/
theorem c9_cr_nonneg_amended :
    ∀ s : String, monsterParser.crTokenOk s = true →
      JSNum.isNonnegRat (monsterParser.crOfString s) = true := by
  intro s h
  rw [monsterParser.crTokenOk] at h
  rw [monsterParser.crOfString]
  by_cases hc : JsStr.containsChar s '/' = true
  · simp only [hc, if_true] at h ⊢
    generalize hL : (JsStr.splitOn s "/").map RegexEng.jsParseNat = L at h ⊢
    cases L with
    | nil => simp at h
    | cons a t =>
      cases a with
      | none => simp at h
      | some x =>
        cases t with
        | nil => simp at h
        | cons b t2 =>
          cases b with
          | none => simp at h
          | some y =>
            simp only [decide_eq_true_eq] at h
            simp only [jsDiv]
            rw [if_neg h]
            simp only [JSNum.isNonnegRat, decide_eq_true_eq]
            exact div_nonneg (by positivity) (by positivity)
  · have hc' : JsStr.containsChar s '/' = false := by simpa using hc
    simp only [hc', Bool.false_eq_true, if_false] at h ⊢
    generalize hN : RegexEng.jsParseNat s = N at h ⊢
    cases N with
    | none => simp at h
    | some n => simp [JSNum.isNonnegRat]

/-- Witness for C9's amended theorem at the CR token 1/4. -/
theorem c9_cr_nonneg_witness :
    monsterParser.crTokenOk "1/4" = true ∧
    JSNum.isNonnegRat (monsterParser.crOfString "1/4") = true :=
  ⟨by decide, c9_cr_nonneg_amended "1/4" (by decide)⟩

/-- C5 counterexample: a statblock whose ability section has only a STR line
parses to a record whose abilities object holds only the `str` key — `dex`
is absent rather than defaulted to 10, so the abilities field of the
assembled record is not always fully populated with all six scores. -/
theorem c5_abilities_partial_counterexample :
    (monsterParser.parseMonster "Goblin\nSTR 18 (+4)").map
        (fun m => (m.abilities, m.abilities.lookup "dex")) =
      Except.ok ([("str", 18)], none) := by
  decide

theorem abilitiesStep_unmatched (acc : List (String × Nat)) (a : monsterParser.TaggedLine)
    (h : RegexEng.reMatch monsterParser.abilitiesRE a.line = none) :
    monsterParser.abilitiesStep acc a = acc := by
  simp [monsterParser.abilitiesStep, h]

theorem abilities_foldl_unmatched (l : List monsterParser.TaggedLine)
    (acc : List (String × Nat))
    (h : ∀ e ∈ l, RegexEng.reMatch monsterParser.abilitiesRE e.line = none) :
    l.foldl monsterParser.abilitiesStep acc = acc := by
  induction l generalizing acc with
  | nil => rfl
  | cons e t ih =>
    rw [List.foldl_cons, abilitiesStep_unmatched acc e (h e (by simp))]
    exact ih acc (fun x hx => h x (by simp [hx]))

theorem scoreStep_no_mention (ab : contentParser.AbilityScores) (line : String)
    (h : RegexEng.reSearch contentParser.abilityMention line = none) :
    contentParser.scoreStep ab line = ab := by
  simp [contentParser.scoreStep, h]

/-- C5 amended: in `monsterParser` an ability whose line is absent or
unmatched is simply missing from the abilities object — the default is the
empty object, not a score of 10 — while the always-six-scores-default-10
behaviour belongs to `contentParser._extractAbilityScores`, whose record
starts with every score at 10 and keeps it for unmatched input. -/
theorem c5_abilities_defaults_amended :
    (∀ blocks, monsterParser.blocksGet blocks monsterParser.BlockId.abilities = none →
       monsterParser.extractAbilities blocks = []) ∧
    (∀ blocks l, monsterParser.blocksGet blocks monsterParser.BlockId.abilities = some l →
       (∀ e ∈ l, RegexEng.reMatch monsterParser.abilitiesRE e.line = none) →
       monsterParser.extractAbilities blocks = []) ∧
    (∀ lines, (∀ line ∈ lines, RegexEng.reSearch contentParser.abilityMention line = none) →
       contentParser.extractAbilityScores lines =
         { str := 10, dex := 10, con := 10, int := 10, wis := 10, cha := 10 }) := by
  refine ⟨?_, ?_, ?_⟩
  · intro blocks hget
    simp [monsterParser.extractAbilities, hget]
  · intro blocks l hget hall
    cases l with
    | nil => simp [monsterParser.extractAbilities, hget]
    | cons e rest =>
      simp only [monsterParser.extractAbilities, hget]
      exact abilities_foldl_unmatched (e :: rest) [] hall
  · intro lines hall
    unfold contentParser.extractAbilityScores
    induction lines with
    | nil => rfl
    | cons x t ih =>
      rw [List.foldl_cons, scoreStep_no_mention _ x (hall x (by simp))]
      exact ih (fun y hy => hall y (by simp [hy]))

/-- Witness for C5's amended theorem: a missing section, a section of one
unmatched line, and a mention-free line list. -/
theorem c5_abilities_defaults_witness :
    monsterParser.extractAbilities [] = [] ∧
    monsterParser.extractAbilities
        [(monsterParser.BlockId.abilities, [⟨0, "no ability pattern"⟩])] = [] ∧
    contentParser.extractAbilityScores ["purely narrative. nothing to see"] =
      { str := 10, dex := 10, con := 10, int := 10, wis := 10, cha := 10 } :=
  ⟨c5_abilities_defaults_amended.1 [] rfl,
   c5_abilities_defaults_amended.2.1 [(monsterParser.BlockId.abilities,
     [⟨0, "no ability pattern"⟩])] [⟨0, "no ability pattern"⟩] (by decide) (by decide),
   c5_abilities_defaults_amended.2.2 ["purely narrative. nothing to see"] (by decide)⟩

/-- C3 counterexample: after a top-level armor line, the line
`Amphibious. ...` matches no section header and matches the Title-Case
sentence shape, so by the claim it should be recorded under Features — but
the tagger records it under the Other/biography bucket (the other-block
branch also fires, because the title is at most 31 characters and the
ability flag is off), leaving the Features section empty. -/
theorem c3_title_line_routed_to_other_counterexample :
    monsterParser.getFirstMatch
        "Amphibious. The creature can breathe air and water."
        [monsterParser.BlockId.armor] = none ∧
    RegexEng.reTest monsterParser.blockTitleRE
        "Amphibious. The creature can breathe air and water." = true ∧
    monsterParser.parseIntoBlocks
        ["Armor Class 15", "Amphibious. The creature can breathe air and water."] =
      [(monsterParser.BlockId.armor, [⟨0, "Armor Class 15"⟩]),
       (monsterParser.BlockId.features, []),
       (monsterParser.BlockId.otherBlock,
        [⟨1, "Amphibious. The creature can breathe air and water."⟩])] := by
  decide

/-- C3 amended: on a line with no header match while the top-level run is
active and which matches the Title-Case shape, the tagger does switch to the
Features section (resetting its buffer) and ends the top-level run — but the
line itself is recorded under Features only when the ability run is still
open or the line does not also match the other-block title shape (its first
period past the 31st character); otherwise the Other section takes over as
current section and receives the line. -/
theorem c3_features_switch_amended :
    ∀ (st : monsterParser.TagState) (i : Nat) (line : String),
      JsStr.trim line = line →
      ¬ line.length = 0 →
      JsStr.startsWith line "*" = false →
      monsterParser.getFirstMatch line (st.blocks.map (fun p => p.1)) = none →
      st.foundTopBlock = true →
      RegexEng.reTest monsterParser.blockTitleRE line = true →
      (monsterParser.tagStep st i line).foundTopBlock = false ∧
      (st.foundAbilityLine = true ∨ RegexEng.reTest monsterParser.otherBlockRE line = false →
        (monsterParser.tagStep st i line).currentBlockId = some monsterParser.BlockId.features ∧
        monsterParser.blocksGet (monsterParser.tagStep st i line).blocks
          monsterParser.BlockId.features = some [⟨i, line⟩]) ∧
      (st.foundAbilityLine = false → RegexEng.reTest monsterParser.otherBlockRE line = true →
        (monsterParser.tagStep st i line).currentBlockId = some monsterParser.BlockId.otherBlock ∧
        monsterParser.blocksGet (monsterParser.tagStep st i line).blocks
          monsterParser.BlockId.features = some [] ∧
        ∃ l, monsterParser.blocksGet (monsterParser.tagStep st i line).blocks
               monsterParser.BlockId.otherBlock = some l ∧ l.getLast? = some ⟨i, line⟩) := by
  intro st i line htrim hlen hstar hm htop htitle
  have hlen' : (line.length == 0) = false := by simp [hlen]
  by_cases hab : st.foundAbilityLine = true
  · -- ability flag still set: the other-block branch cannot fire
    have hstep : monsterParser.tagStep st i line =
        { blocks := monsterParser.blocksPush
            (monsterParser.blocksSet st.blocks monsterParser.BlockId.features [])
            monsterParser.BlockId.features ⟨i, line⟩,
          currentBlockId := some monsterParser.BlockId.features,
          foundTopBlock := false, foundAbilityLine := st.foundAbilityLine } := by
      rw [monsterParser.tagStep, htrim]
      simp only [hlen', hstar, hm, htop, htitle, hab, Option.isNone_none,
        Bool.true_and, Bool.and_true, Bool.not_true, Bool.false_and, Bool.and_false,
        if_true, if_false, blocksHas_set_self, Bool.false_eq_true]
    refine ⟨by rw [hstep], fun _ => ⟨by rw [hstep], ?_⟩, fun hab' _ => by rw [hab'] at hab; simp at hab⟩
    rw [hstep]
    rw [blocksGet_push_self, blocksGet_set_self]
    rfl
  · have hab' : st.foundAbilityLine = false := by simpa using hab
    by_cases hoth : RegexEng.reTest monsterParser.otherBlockRE line = true
    · -- the other-block branch takes over
      have hstep : monsterParser.tagStep st i line =
          { blocks := monsterParser.blocksPush
              (if monsterParser.blocksHas
                    (monsterParser.blocksSet st.blocks monsterParser.BlockId.features [])
                    monsterParser.BlockId.otherBlock then
                 monsterParser.blocksSet st.blocks monsterParser.BlockId.features []
               else
                 monsterParser.blocksSet
                   (monsterParser.blocksSet st.blocks monsterParser.BlockId.features [])
                   monsterParser.BlockId.otherBlock [])
              monsterParser.BlockId.otherBlock ⟨i, line⟩,
            currentBlockId := some monsterParser.BlockId.otherBlock,
            foundTopBlock := false, foundAbilityLine := st.foundAbilityLine } := by
        rw [monsterParser.tagStep, htrim]
        by_cases hhas : monsterParser.blocksHas
            (monsterParser.blocksSet st.blocks monsterParser.BlockId.features [])
            monsterParser.BlockId.otherBlock = true
        · simp only [hlen', hstar, hm, htop, htitle, hab', hoth, Option.isNone_none,
            Bool.true_and, Bool.and_true, Bool.not_false, if_true, if_false, hhas,
            Bool.false_eq_true]
        · have hhas' : monsterParser.blocksHas
              (monsterParser.blocksSet st.blocks monsterParser.BlockId.features [])
              monsterParser.BlockId.otherBlock = false := by simpa using hhas
          simp only [hlen', hstar, hm, htop, htitle, hab', hoth, Option.isNone_none,
            Bool.true_and, Bool.and_true, Bool.not_false, if_true, if_false, hhas',
            blocksHas_set_self, Bool.false_eq_true]
      have hne : ¬ monsterParser.BlockId.features = monsterParser.BlockId.otherBlock := by
        decide
      refine ⟨by rw [hstep], fun hor => ?_, fun _ _ => ⟨by rw [hstep], ?_, ?_⟩⟩
      · rcases hor with h1 | h1
        · rw [h1] at hab'; simp at hab'
        · rw [h1] at hoth; simp at hoth
      · rw [hstep]
        by_cases hhas : monsterParser.blocksHas
            (monsterParser.blocksSet st.blocks monsterParser.BlockId.features [])
            monsterParser.BlockId.otherBlock = true
        · simp only [hhas, if_true]
          rw [blocksGet_push_ne _ _ _ _ hne,
            blocksGet_set_self]
        · have hhas' : (monsterParser.blocksHas
              (monsterParser.blocksSet st.blocks monsterParser.BlockId.features [])
              monsterParser.BlockId.otherBlock) = false := by simpa using hhas
          simp only [hhas', Bool.false_eq_true, if_false]
          rw [blocksGet_push_ne _ _ _ _ hne,
            blocksGet_set_ne _ _ _ _ hne,
            blocksGet_set_self]
      · rw [hstep]
        by_cases hhas : monsterParser.blocksHas
            (monsterParser.blocksSet st.blocks monsterParser.BlockId.features [])
            monsterParser.BlockId.otherBlock = true
        · simp only [hhas, if_true]
          have hsome : ∃ l0, monsterParser.blocksGet
              (monsterParser.blocksSet st.blocks monsterParser.BlockId.features [])
              monsterParser.BlockId.otherBlock = some l0 := by
            rw [monsterParser.blocksHas] at hhas
            exact Option.isSome_iff_exists.mp hhas
          rcases hsome with ⟨l0, hl0⟩
          refine ⟨l0 ++ [⟨i, line⟩], ?_, List.getLast?_concat l0⟩
          rw [blocksGet_push_self, hl0]
          rfl
        · have hhas' : (monsterParser.blocksHas
              (monsterParser.blocksSet st.blocks monsterParser.BlockId.features [])
              monsterParser.BlockId.otherBlock) = false := by simpa using hhas
          simp only [hhas', Bool.false_eq_true, if_false]
          refine ⟨[⟨i, line⟩], ?_, rfl⟩
          rw [blocksGet_push_self, blocksGet_set_self]
          rfl
    · -- no other-block match: the line stays in Features
      have hoth' : RegexEng.reTest monsterParser.otherBlockRE line = false := by
        simpa using hoth
      have hstep : monsterParser.tagStep st i line =
          { blocks := monsterParser.blocksPush
              (monsterParser.blocksSet st.blocks monsterParser.BlockId.features [])
              monsterParser.BlockId.features ⟨i, line⟩,
            currentBlockId := some monsterParser.BlockId.features,
            foundTopBlock := false, foundAbilityLine := st.foundAbilityLine } := by
        rw [monsterParser.tagStep, htrim]
        simp only [hlen', hstar, hm, htop, htitle, hab', hoth', Option.isNone_none,
          Bool.true_and, Bool.and_true, Bool.and_false, if_true, if_false,
          blocksHas_set_self, Bool.false_eq_true]
      refine ⟨by rw [hstep], fun _ => ⟨by rw [hstep], ?_⟩,
        fun _ hoth2 => by rw [hoth2] at hoth'; simp at hoth'⟩
      rw [hstep]
      rw [blocksGet_push_self, blocksGet_set_self]
      rfl

/-- Witness for C3's amended theorem: with the ability flag still set, a
short-titled feature line is recorded under the refreshed Features buffer. -/
theorem c3_features_switch_witness :
    (monsterParser.tagStep
        { blocks := [(monsterParser.BlockId.armor, [⟨0, "Armor Class 15"⟩])],
          currentBlockId := some monsterParser.BlockId.armor,
          foundTopBlock := true, foundAbilityLine := true }
        1 "Amphibious. The creature can breathe air and water.").currentBlockId =
      some monsterParser.BlockId.features ∧
    monsterParser.blocksGet
        (monsterParser.tagStep
          { blocks := [(monsterParser.BlockId.armor, [⟨0, "Armor Class 15"⟩])],
            currentBlockId := some monsterParser.BlockId.armor,
            foundTopBlock := true, foundAbilityLine := true }
          1 "Amphibious. The creature can breathe air and water.").blocks
        monsterParser.BlockId.features =
      some [⟨1, "Amphibious. The creature can breathe air and water."⟩] := by
  have h := c3_features_switch_amended
    { blocks := [(monsterParser.BlockId.armor, [⟨0, "Armor Class 15"⟩])],
      currentBlockId := some monsterParser.BlockId.armor,
      foundTopBlock := true, foundAbilityLine := true }
    1 "Amphibious. The creature can breathe air and water."
    (by decide) (by decide) (by decide) (by decide) rfl (by decide)
  exact h.2.1 (Or.inl rfl)

/-- C1: `parseMonster` fails — with exactly the error text
"No content to parse" — if and only if the cleaned input has zero non-blank
lines; any input whose cleaned text has at least one non-blank line yields a
record without failing; and a missing or unmatched section resolves to its
typed default rather than an error: hit points to value 0 with empty
formula, challenge to cr 0 / xp 0, and the list-valued senses and
named-entry sections to the empty list. -/
theorem c1_empty_input_error_iff_and_defaults :
    (∀ content : String,
       (monsterParser.parseMonster content = Except.error "No content to parse" ↔
         monsterParser.nonBlankLines (monsterParser.cleanInput content) = [])) ∧
    (∀ content : String,
       ¬ monsterParser.nonBlankLines (monsterParser.cleanInput content) = [] →
       ∃ m, monsterParser.parseMonster content = Except.ok m) ∧
    (∀ blocks, monsterParser.blocksGet blocks monsterParser.BlockId.health = none →
       monsterParser.extractHP blocks = { value := 0, formula := "" }) ∧
    (∀ blocks e rest,
       monsterParser.blocksGet blocks monsterParser.BlockId.health = some (e :: rest) →
       RegexEng.reMatch monsterParser.healthRE e.line = none →
       monsterParser.extractHP blocks = { value := 0, formula := "" }) ∧
    (∀ blocks, monsterParser.blocksGet blocks monsterParser.BlockId.challenge = none →
       monsterParser.extractChallenge blocks = { cr := JSNum.num 0, xp := 0 }) ∧
    (∀ blocks e rest,
       monsterParser.blocksGet blocks monsterParser.BlockId.challenge = some (e :: rest) →
       RegexEng.reMatch monsterParser.challengeRE e.line = none →
       monsterParser.extractChallenge blocks = { cr := JSNum.num 0, xp := 0 }) ∧
    (∀ blocks, monsterParser.blocksGet blocks monsterParser.BlockId.senses = none →
       monsterParser.extractSenses blocks = []) ∧
    (∀ blocks blockId, monsterParser.blocksGet blocks blockId = none →
       monsterParser.extractNamedEntries blocks blockId = []) := by
  refine ⟨?_, ?_, ?_, ?_, ?_, ?_, ?_, ?_⟩
  · intro content
    cases h : monsterParser.nonBlankLines (monsterParser.cleanInput content) with
    | nil => simp [monsterParser.parseMonster, h]
    | cons nm rest => simp [monsterParser.parseMonster, h]
  · intro content h
    cases hl : monsterParser.nonBlankLines (monsterParser.cleanInput content) with
    | nil => exact absurd hl h
    | cons nm rest =>
      simp only [monsterParser.parseMonster, hl]
      exact ⟨_, rfl⟩
  · intro blocks hget
    simp [monsterParser.extractHP, hget]
  · intro blocks e rest hget hm
    simp [monsterParser.extractHP, hget, hm]
  · intro blocks hget
    simp [monsterParser.extractChallenge, hget]
  · intro blocks e rest hget hm
    simp [monsterParser.extractChallenge, hget, hm]
  · intro blocks hget
    simp [monsterParser.extractSenses, hget]
  · intro blocks blockId hget
    simp [monsterParser.extractNamedEntries, hget]

/-- Witness for C1 at concrete inputs: the one-line block parses to a
record, the empty string fails with the exact message, and empty or
unmatched health/challenge/senses/actions sections give their defaults. -/
theorem c1_empty_input_error_witness :
    (∃ m, monsterParser.parseMonster "Goblin" = Except.ok m) ∧
    monsterParser.parseMonster "" = Except.error "No content to parse" ∧
    monsterParser.extractHP [] = { value := 0, formula := "" } ∧
    monsterParser.extractHP
        [(monsterParser.BlockId.health, [⟨0, "Hit Points garbage"⟩])] =
      { value := 0, formula := "" } ∧
    monsterParser.extractChallenge [] = { cr := JSNum.num 0, xp := 0 } ∧
    monsterParser.extractChallenge
        [(monsterParser.BlockId.challenge, [⟨0, "Challenge garbage"⟩])] =
      { cr := JSNum.num 0, xp := 0 } ∧
    monsterParser.extractSenses [] = [] ∧
    monsterParser.extractNamedEntries [] monsterParser.BlockId.actions = [] :=
  ⟨c1_empty_input_error_iff_and_defaults.2.1 "Goblin" (by decide),
   (c1_empty_input_error_iff_and_defaults.1 "").mpr (by decide),
   c1_empty_input_error_iff_and_defaults.2.2.1 [] rfl,
   c1_empty_input_error_iff_and_defaults.2.2.2.1
     [(monsterParser.BlockId.health, [⟨0, "Hit Points garbage"⟩])]
     ⟨0, "Hit Points garbage"⟩ [] (by decide) (by decide),
   c1_empty_input_error_iff_and_defaults.2.2.2.2.1 [] rfl,
   c1_empty_input_error_iff_and_defaults.2.2.2.2.2.1
     [(monsterParser.BlockId.challenge, [⟨0, "Challenge garbage"⟩])]
     ⟨0, "Challenge garbage"⟩ [] (by decide) (by decide),
   c1_empty_input_error_iff_and_defaults.2.2.2.2.2.2.1 [] rfl,
   c1_empty_input_error_iff_and_defaults.2.2.2.2.2.2.2 []
     monsterParser.BlockId.actions rfl⟩
